import Mathlib

/-!
Verification of the influenzanet user-management-service core against its
natural-language specification.

The Go source is shallowly embedded: unix-second timestamps become `Int`,
Mongo update operations become pure functions on the embedded records, and form
of each embedded definition follows the corresponding Go function. Functions
of the repository that are not part of the provided sources (user aggregate
helpers, the temp-token store operations, the token codec) are modelled from
the specification; each such definition carries a doc comment starting with
`Modelled from the spec:`.
-/

/-- A sub-profile of a user (`models.Profile`); only the fields the verified
endpoints touch are embedded. -/
structure Profile where
  id : String
  profileAlias : String
  mainProfile : Bool
  deriving Repr, DecidableEq, Inhabited

/-- `models.Timestamps`: unix-second timestamps, `0` meaning never/unset. -/
structure Timestamps where
  createdAt : Int := 0
  updatedAt : Int := 0
  lastLogin : Int := 0
  lastTokenRefresh : Int := 0
  lastPasswordChange : Int := 0
  reminderToConfirmSentAt : Int := 0
  markedForDeletion : Int := 0
  deriving Repr, DecidableEq, Inhabited

/-- `models.Account`: the credential part of the user aggregate. The refresh
tokens are the simple list-of-opaque-strings representation used by the
provided source (`user.Account.RefreshTokens = []string{}` in
`RevokeAllRefreshTokens`). -/
structure Account where
  accountID : String
  accountConfirmedAt : Int := 0
  preferredLanguage : String := ""
  refreshTokens : List String := []
  passwordResetTriggers : List Int := []
  deriving Repr, DecidableEq, Inhabited

/-- `models.User`: the user aggregate (fields relevant to the verified
endpoints). -/
structure User where
  id : String
  account : Account
  profiles : List Profile := []
  timestamps : Timestamps := {}
  deriving Repr, DecidableEq, Inhabited

/-- `UserDBService.UpdateMarkedForDeletionTime` from the user store, acting on
one stored user document.

The Go function issues, for `reset = true`, an `UpdateOne` filtered by `_id`
only (so it matches whenever the user exists and unconditionally sets
`timestamps.markedForDeletion` to 0), and otherwise an `UpdateOne` filtered by
`_id` and `timestamps.markedForDeletion` *not* `> 0`, setting the field to
`now + dT2`. The returned `Bool` is `MatchedCount > 0`. -/
def UpdateMarkedForDeletionTime (u : User) (now dT2 : Int) (reset : Bool) :
    Bool × User :=
  if reset then
    (true, { u with timestamps := { u.timestamps with markedForDeletion := 0 } })
  else
    if ¬ u.timestamps.markedForDeletion > 0 then
      (true, { u with timestamps :=
        { u.timestamps with markedForDeletion := now + dT2 } })
    else
      (false, u)

/-- C4: `UpdateMarkedForDeletion` semantics. With `reset=true` the field is
set to 0 unconditionally; with `reset=false` it is set to `now + delta` only
if the current value is not `> 0`, reporting whether the update applied; a
second `reset=false` call while a value `> 0` exists is a no-op reporting
not-applied. -/
theorem updateMarkedForDeletion_spec (u : User) (now dT2 : Int) :
    (UpdateMarkedForDeletionTime u now dT2 true).2.timestamps.markedForDeletion = 0
    ∧ (¬ u.timestamps.markedForDeletion > 0 →
        UpdateMarkedForDeletionTime u now dT2 false =
          (true, { u with timestamps :=
            { u.timestamps with markedForDeletion := now + dT2 } }))
    ∧ (u.timestamps.markedForDeletion > 0 →
        UpdateMarkedForDeletionTime u now dT2 false = (false, u)) := by
  refine ⟨rfl, fun h => ?_, fun h => ?_⟩
  · simp [UpdateMarkedForDeletionTime, h]
  · simp [UpdateMarkedForDeletionTime, h, not_lt.mpr (le_of_lt h)]

/-! ### BSON documents and the `FindUsersMarkedForDeletion` query (C3)

The store queries Mongo with dotted field paths. To decide whether the filter
of `FindUsersMarkedForDeletion` can ever match a stored user document, user
documents and the relevant fragment of Mongo filter evaluation are embedded
explicitly. -/

/-- A BSON value: an integer, a string, or a sub-document (the fragment the
verified queries touch). -/
inductive BVal where
  | vint : Int → BVal
  | vstr : String → BVal
  | vdoc : List (String × BVal) → BVal
  deriving Repr

/-- Look up a top-level field of a BSON document body. -/
def docField : List (String × BVal) → String → Option BVal
  | [], _ => none
  | (k, v) :: rest, key => if k = key then some v else docField rest key

/-- Resolve a dotted field path (already split at the dots) against a BSON
value, as Mongo does for filter field paths on non-array values. -/
def lookupPath : BVal → List String → Option BVal
  | v, [] => some v
  | BVal.vdoc fields, k :: ks =>
    match docField fields k with
    | some v => lookupPath v ks
    | none => none
  | _, _ :: _ => none

/-- Mongo `{path: {$gt: bound}}` on integer values: a missing field or a
non-integer value never matches. -/
def matchesGtInt (d : BVal) (path : List String) (bound : Int) : Bool :=
  match lookupPath d path with
  | some (BVal.vint v) => bound < v
  | _ => false

/-- Mongo `{path: {$lt: bound}}` on integer values: a missing field or a
non-integer value never matches. -/
def matchesLtInt (d : BVal) (path : List String) (bound : Int) : Bool :=
  match lookupPath d path with
  | some (BVal.vint v) => v < bound
  | _ => false

/-- The `timestamps` sub-document of a stored user, with the BSON field names
used by the store's queries (`timestamps.createdAt`, `timestamps.lastLogin`,
`timestamps.markedForDeletion`, ...). -/
def timestampsToDoc (t : Timestamps) : BVal :=
  BVal.vdoc
    [("createdAt", BVal.vint t.createdAt),
     ("updatedAt", BVal.vint t.updatedAt),
     ("lastLogin", BVal.vint t.lastLogin),
     ("lastTokenRefresh", BVal.vint t.lastTokenRefresh),
     ("lastPasswordChange", BVal.vint t.lastPasswordChange),
     ("reminderToConfirmSentAt", BVal.vint t.reminderToConfirmSentAt),
     ("markedForDeletion", BVal.vint t.markedForDeletion)]

/-- The stored user document, restricted to the fields addressed by the
queries under verification (`_id`, `account.*`, `timestamps.*`; the remaining
aggregate fields are never mentioned by those filters). -/
def userToDoc (u : User) : BVal :=
  BVal.vdoc
    [("_id", BVal.vstr u.id),
     ("account", BVal.vdoc
        [("accountID", BVal.vstr u.account.accountID),
         ("accountConfirmedAt", BVal.vint u.account.accountConfirmedAt)]),
     ("timestamps", timestampsToDoc u.timestamps)]

/-- The filter of `UserDBService.FindUsersMarkedForDeletion`, exactly as the
source builds it: an `$and` of `$gt: 0` and `$lt: now` over the dotted path
`timestamps.timestamps.markedForDeletion`. -/
def markedForDeletionFilter (d : BVal) (now : Int) : Bool :=
  matchesGtInt d ["timestamps", "timestamps", "markedForDeletion"] 0 &&
  matchesLtInt d ["timestamps", "timestamps", "markedForDeletion"] now

/-- `UserDBService.FindUsersMarkedForDeletion`: returns the stored users whose
document matches `markedForDeletionFilter`. -/
def FindUsersMarkedForDeletion (users : List User) (now : Int) : List User :=
  users.filter (fun u => markedForDeletionFilter (userToDoc u) now)

/-- A user whose grace clock has elapsed (`markedForDeletion = 5 < now = 10`):
per the specification it must be returned by `FindUsersMarkedForDeletion`. -/
def elapsedUser : User :=
  { id := "u2", account := { accountID := "d@e.f" },
    timestamps := { markedForDeletion := 5 } }

/-- C3: the query field path `timestamps.timestamps.markedForDeletion` does
not resolve against the user schema, so `FindUsersMarkedForDeletion` returns
no user whatsoever — in particular not `elapsedUser` at `now = 10`, although
`0 < markedForDeletion < now` holds for it, as the claim requires. -/
theorem findUsersMarkedForDeletion_returns_nothing :
    (∀ (users : List User) (now : Int), FindUsersMarkedForDeletion users now = [])
    ∧ 0 < elapsedUser.timestamps.markedForDeletion
    ∧ elapsedUser.timestamps.markedForDeletion < 10
    ∧ FindUsersMarkedForDeletion [elapsedUser] 10 = [] := by
  refine ⟨fun users now => ?_, by decide, by decide, by decide⟩
  simp only [FindUsersMarkedForDeletion, List.filter_eq_nil_iff]
  intro u _
  simp [markedForDeletionFilter, matchesGtInt, matchesLtInt, lookupPath,
    userToDoc, timestampsToDoc, docField]

/-- A concrete user already scheduled for deletion, used to witness C4. -/
def markedUser : User :=
  { id := "u1", account := { accountID := "a@b.c" },
    timestamps := { markedForDeletion := 3 } }

/-- Witness for C4 at a concrete user: a `reset=false` call while the stored
value is positive is a no-op reporting not-applied. -/
theorem updateMarkedForDeletion_spec_witness :
    markedUser.timestamps.markedForDeletion > 0 ∧
    UpdateMarkedForDeletionTime markedUser 100 50 false = (false, markedUser) :=
  ⟨by decide, (updateMarkedForDeletion_spec markedUser 100 50).2.2 (by decide)⟩

/-! ### Temp tokens: throttled cleanup (C9) and default expiration (C10) -/

/-- A capability token (`models.TempToken`). -/
structure TempToken where
  token : String := ""
  userID : String := ""
  instanceID : String := ""
  purpose : String := ""
  info : List (String × String) := []
  expiration : Int := 0
  deriving Repr, DecidableEq, Inhabited

/-- The request message (`api_types.TempTokenInfo`) of the temp-token
endpoints. -/
structure TempTokenInfo where
  userId : String
  instanceId : String
  purpose : String
  info : List (String × String) := []
  expiration : Int := 0
  deriving Repr, DecidableEq

/-- `deleteTempTokensMinInterval = 10 * 60` from `endpoints_temptoken.go`. -/
def deleteTempTokensMinInterval : Int := 10 * 60

/-- The process-wide throttle state of the lazy temp-token cleanup: the module
variable `lastTempTokenDeleteTime` (initially the zero value), together with
the history of times at which `CleanExpiredTemptokens(3600)` was started, kept
so that properties of the trigger times can be stated. -/
structure CleanupThrottle where
  lastTempTokenDeleteTime : Int
  triggerTimes : List Int
  deriving Repr, DecidableEq

/-- The cleanup-throttle prologue shared verbatim by `GetOrCreateTemptoken`
and `GenerateTempToken`: if `lastTempTokenDeleteTime + deleteTempTokensMinInterval
< now`, start the cleanup and record `now` as the new
`lastTempTokenDeleteTime`; otherwise do nothing. -/
def temptokenCleanupStep (st : CleanupThrottle) (now : Int) : CleanupThrottle :=
  if st.lastTempTokenDeleteTime + deleteTempTokensMinInterval < now then
    { lastTempTokenDeleteTime := now, triggerTimes := st.triggerTimes ++ [now] }
  else
    st

/-- The throttle state after a sequence of temp-token endpoint calls at the
given times, starting from process start (`lastTempTokenDeleteTime = 0`, no
cleanup started yet). -/
def runTemptokenCalls (times : List Int) : CleanupThrottle :=
  times.foldl temptokenCleanupStep { lastTempTokenDeleteTime := 0, triggerTimes := [] }

/-- Every trigger time recorded by the throttle is bounded by the stored
`lastTempTokenDeleteTime`, and the trigger times are spaced more than
`deleteTempTokensMinInterval` apart. Invariant of `temptokenCleanupStep`. -/
theorem temptokenCleanup_invariant (times : List Int) (st : CleanupThrottle)
    (hle : ∀ a ∈ st.triggerTimes, a ≤ st.lastTempTokenDeleteTime)
    (hpw : st.triggerTimes.Pairwise
      (fun a b => a + deleteTempTokensMinInterval < b)) :
    (∀ a ∈ (times.foldl temptokenCleanupStep st).triggerTimes,
      a ≤ (times.foldl temptokenCleanupStep st).lastTempTokenDeleteTime)
    ∧ (times.foldl temptokenCleanupStep st).triggerTimes.Pairwise
      (fun a b => a + deleteTempTokensMinInterval < b) := by
  induction times generalizing st with
  | nil => exact ⟨hle, hpw⟩
  | cons t rest ih =>
    simp only [List.foldl_cons]
    by_cases h : st.lastTempTokenDeleteTime + deleteTempTokensMinInterval < t
    · refine ih _ ?_ ?_
      · intro a ha
        simp only [temptokenCleanupStep, if_pos h, List.mem_append,
          List.mem_singleton] at ha ⊢
        rcases ha with ha | ha
        · have := hle a ha
          have hd : (0 : Int) < deleteTempTokensMinInterval := by decide
          omega
        · omega
      · simp only [temptokenCleanupStep, if_pos h]
        rw [List.pairwise_append]
        refine ⟨hpw, List.pairwise_singleton _ _, ?_⟩
        intro a ha b hb
        rw [List.mem_singleton] at hb
        subst hb
        have := hle a ha
        omega
    · rw [temptokenCleanupStep, if_neg h]
      exact ih st hle hpw

/-- C9: across any sequence of `GenerateTempToken` / `GetOrCreateTemptoken`
calls, any two distinct recorded cleanup-trigger times are more than
`deleteTempTokensMinInterval` (10 minutes) apart; so the cleanup is started by
a call only when more than 10 minutes have elapsed since the last start, and
is never started twice within one 10-minute window. -/
theorem temptokenCleanup_throttled (times : List Int) (a b : Int)
    (ha : a ∈ (runTemptokenCalls times).triggerTimes)
    (hb : b ∈ (runTemptokenCalls times).triggerTimes)
    (hab : a < b) :
    a + deleteTempTokensMinInterval < b := by
  have hpw := (temptokenCleanup_invariant times
    { lastTempTokenDeleteTime := 0, triggerTimes := [] }
    (by intro a h; cases h) List.Pairwise.nil).2
  rw [runTemptokenCalls] at ha hb
  have hsym : Symmetric (fun a b : Int =>
      a ≠ b → (a + deleteTempTokensMinInterval < b
        ∨ b + deleteTempTokensMinInterval < a)) := by
    intro x y hxy hne
    exact (hxy (Ne.symm hne)).symm
  have hpw2 : (times.foldl temptokenCleanupStep
      { lastTempTokenDeleteTime := 0, triggerTimes := [] }).triggerTimes.Pairwise
      (fun a b : Int => a ≠ b →
        (a + deleteTempTokensMinInterval < b
          ∨ b + deleteTempTokensMinInterval < a)) := by
    refine hpw.imp ?_
    intro x y hxy _
    exact Or.inl hxy
  have := hpw2.forall hsym ha hb (by omega) (by omega)
  rcases this with h | h
  · exact h
  · omega

/-- Witness for C9: two calls 20 minutes apart both trigger the cleanup, and
the recorded trigger times are more than 10 minutes apart. -/
theorem temptokenCleanup_throttled_witness :
    1000 ∈ (runTemptokenCalls [1000, 2200]).triggerTimes
    ∧ 2200 ∈ (runTemptokenCalls [1000, 2200]).triggerTimes
    ∧ 1000 + deleteTempTokensMinInterval < 2200 :=
  ⟨by decide, by decide,
    temptokenCleanup_throttled [1000, 2200] 1000 2200
      (by decide) (by decide) (by decide)⟩

/-- Modelled from the spec: `tokens.GetExpirationTime` (not among the provided
sources) converts a duration to an absolute expiry, `now + duration` in unix
seconds; durations in the embedding are already given in seconds. -/
def GetExpirationTime (now seconds : Int) : Int := now + seconds

/-- Modelled from the spec: `GlobalDBService.GetTempTokenForUser` (store
operation `GetForUser(instance, userId, purpose?)`, not among the provided
sources) lists the stored tokens of the given instance and user, filtered by
purpose when one is given. -/
def GetTempTokenForUser (store : List TempToken)
    (instanceID userID purpose : String) : List TempToken :=
  store.filter (fun t => t.instanceID = instanceID && t.userID = userID &&
    (purpose == "" || t.purpose == purpose))

/-- Modelled from the spec: `GlobalDBService.AddTempToken` (store operation
`Add(token) → tokenString`, not among the provided sources) generates the
opaque token string and stores the record; the generated string is passed in
as `freshToken`. -/
def AddTempToken (store : List TempToken) (t : TempToken) (freshToken : String) :
    String × List TempToken :=
  (freshToken, store ++ [{ t with token := freshToken }])

/-- `GenerateTempToken` from `endpoints_temptoken.go` (persistence effects
only; the cleanup throttle prologue is `temptokenCleanupStep` above): validate
the request, build the `models.TempToken` from it, default a zero `Expiration`
to `now + 10` days, and store it. Returns the token string and the new store. -/
def GenerateTempToken (store : List TempToken) (t : TempTokenInfo) (now : Int)
    (freshToken : String) : Except String (String × List TempToken) :=
  if t.purpose = "" then .error "missing argument"
  else
    let tempToken : TempToken :=
      { token := "", userID := t.userId, instanceID := t.instanceId,
        purpose := t.purpose, info := t.info, expiration := t.expiration }
    let tempToken :=
      if tempToken.expiration = 0 then
        { tempToken with expiration := GetExpirationTime now (24 * 10 * 3600) }
      else tempToken
    .ok (AddTempToken store tempToken freshToken)

/-- `GetOrCreateTemptoken` from `endpoints_temptoken.go` (persistence effects
only): validate the request; if the user already has a token of the requested
purpose return its string, otherwise create one exactly as `GenerateTempToken`
does, including the 10-day default expiration. -/
def GetOrCreateTemptoken (store : List TempToken) (t : TempTokenInfo) (now : Int)
    (freshToken : String) : Except String (String × List TempToken) :=
  if t.purpose = "" ∨ t.userId = "" ∨ t.instanceId = "" then
    .error "missing argument"
  else
    let tList := GetTempTokenForUser store t.instanceId t.userId t.purpose
    if tList.length < 1 then
      let tempToken : TempToken :=
        { token := "", userID := t.userId, instanceID := t.instanceId,
          purpose := t.purpose, info := t.info, expiration := t.expiration }
      let tempToken :=
        if tempToken.expiration = 0 then
          { tempToken with expiration := GetExpirationTime now (24 * 10 * 3600) }
        else tempToken
      .ok (AddTempToken store tempToken freshToken)
    else
      .ok ((tList.headD default).token, store)

/-- C10: a request with `Expiration = 0` leads to a stored token expiring at
`now + 240` hours, a non-zero requested expiration is stored as given — for
`GenerateTempToken` on any valid request and for `GetOrCreateTemptoken` when
it creates (no token of that purpose exists yet). -/
theorem temptoken_default_expiration (store : List TempToken)
    (t : TempTokenInfo) (now : Int) (freshToken : String)
    (hpurpose : t.purpose ≠ "") :
    (GenerateTempToken store t now freshToken =
      .ok (freshToken, store ++
        [{ token := freshToken, userID := t.userId, instanceID := t.instanceId,
           purpose := t.purpose, info := t.info,
           expiration := if t.expiration = 0 then now + 24 * 10 * 3600
             else t.expiration }]))
    ∧ (t.userId ≠ "" → t.instanceId ≠ "" →
       GetTempTokenForUser store t.instanceId t.userId t.purpose = [] →
       GetOrCreateTemptoken store t now freshToken =
        .ok (freshToken, store ++
          [{ token := freshToken, userID := t.userId, instanceID := t.instanceId,
             purpose := t.purpose, info := t.info,
             expiration := if t.expiration = 0 then now + 24 * 10 * 3600
               else t.expiration }])) := by
  constructor
  · rw [GenerateTempToken, if_neg hpurpose]
    by_cases h : t.expiration = 0 <;>
      simp [h, AddTempToken, GetExpirationTime]
  · intro hu hi hempty
    rw [GetOrCreateTemptoken, if_neg (by tauto), hempty]
    by_cases h : t.expiration = 0 <;>
      simp [h, AddTempToken, GetExpirationTime]

/-- A concrete temp-token request with `Expiration = 0`, used to witness C10. -/
def zeroExpirationRequest : TempTokenInfo :=
  { userId := "u1", instanceId := "i1", purpose := "survey-login" }

/-- The token `zeroExpirationRequest` must produce at `now = 100`: expiration
`100 + 864000` (240 hours later). -/
def defaultedToken : TempToken :=
  { token := "tok1", userID := "u1", instanceID := "i1",
    purpose := "survey-login", expiration := 864100 }

/-- Witness for C10: the concrete request with `Expiration = 0` is stored by
both endpoints with expiration `now + 864000` (240 hours). -/
theorem temptoken_default_expiration_witness :
    GenerateTempToken [] zeroExpirationRequest 100 "tok1" =
      .ok ("tok1", [defaultedToken])
    ∧ GetOrCreateTemptoken [] zeroExpirationRequest 100 "tok1" =
      .ok ("tok1", [defaultedToken]) := by
  have h := temptoken_default_expiration [] zeroExpirationRequest 100 "tok1"
    (by decide)
  exact ⟨by rw [h.1]; rfl, by rw [h.2 (by decide) (by decide) (by decide)]; rfl⟩

/-! ### Access-token renewal (C1, C2) -/

/-- The payload carried inside an access token: roles and username. In the
source it is a string map; the two accessors `tokens.GetRolesFromPayload` and
`tokens.GetUsernameFromPayload` are its only readers on this path, so it is
embedded as a record. -/
structure Payload where
  roles : List String := []
  username : String := ""
  deriving Repr, DecidableEq, Inhabited

/-- `tokens.GetRolesFromPayload`, the roles component of the payload. -/
def GetRolesFromPayload (p : Payload) : List String := p.roles

/-- `tokens.GetUsernameFromPayload`, the username component of the payload. -/
def GetUsernameFromPayload (p : Payload) : String := p.username

/-- The claims of a signed access token (spec 4.B): `{id, instanceId,
profileId, otherProfileIds[], accountConfirmed, payload{roles, username},
issuedAt, expiresAt}`. The signature wrapper is abstracted away: the renewal
endpoint works on the parsed claims. -/
structure TokenClaims where
  id : String
  instanceID : String
  profileID : String
  otherProfileIDs : List String := []
  accountConfirmed : Bool := false
  payload : Payload := {}
  issuedAt : Int := 0
  expiresAt : Int := 0
  deriving Repr, DecidableEq, Inhabited

/-- Modelled from the spec: `tokens.GenerateNewToken` (not among the provided
sources) emits a token with exactly the claims of spec 4.B, built from its
arguments in the source's argument order, with `issuedAt = now` and
`expiresAt = now + expiresIn`. -/
def GenerateNewToken (id : String) (accountConfirmed : Bool) (profileID : String)
    (roles : List String) (instanceID : String) (expiresIn : Int)
    (username : String) (otherProfileIDs : List String) (now : Int) :
    TokenClaims :=
  { id := id, instanceID := instanceID, profileID := profileID,
    otherProfileIDs := otherProfileIDs, accountConfirmed := accountConfirmed,
    payload := { roles := roles, username := username },
    issuedAt := now, expiresAt := now + expiresIn }

/-- Modelled from the spec: `utils.GetMainAndOtherProfiles` (not among the
provided sources) returns the id of the profile with `mainProfile=true`
(exactly one exists by the profile invariant) and the ids of the remaining
profiles. -/
def GetMainAndOtherProfiles (u : User) : String × List String :=
  (((u.profiles.filter (fun p => p.mainProfile)).map (fun p => p.id)).headD "",
   (u.profiles.filter (fun p => !p.mainProfile)).map (fun p => p.id))

/-- Modelled from the spec: `models.User.AddRefreshToken` (not among the
provided sources) appends the token and retains only the newest 10 by
insertion order. -/
def User.AddRefreshToken (u : User) (t : String) : User :=
  let ts := u.account.refreshTokens ++ [t]
  { u with account :=
    { u.account with refreshTokens := ts.drop (ts.length - 10) } }

/-- Modelled from the spec: `models.User.RemoveRefreshToken` (not among the
provided sources) fails with the wrong-refresh-token error if the token is not
present (replay detection) and otherwise removes it. -/
def User.RemoveRefreshToken (u : User) (t : String) : Except String User :=
  if u.account.refreshTokens.contains t then
    .ok { u with account :=
      { u.account with refreshTokens := u.account.refreshTokens.erase t } }
  else
    .error "wrong refresh token"

/-- `UserDBService.UpdateUser`: whole-document replace that first bumps
`timestamps.updatedAt`. -/
def UpdateUser (u : User) (now : Int) : User :=
  { u with timestamps := { u.timestamps with updatedAt := now } }

/-- The `api.TokenResponse` the renewal endpoint returns (profiles list and
`expiresIn` omitted; the access token is represented by its claims). -/
structure TokenResponse where
  accessToken : TokenClaims
  refreshToken : String
  accountConfirmed : Bool
  selectedProfileId : String
  preferredLanguage : String
  deriving Repr, DecidableEq, Inhabited

/-- `RenewJWT` from `endpoints_jwt.go`, on the parsed access token, the stored
user (looked up by `parsedToken.ID`), the presented refresh token, and the
freshly generated refresh-token string: remove the presented refresh token
(error `wrong refresh token` on replay, leaving the stored user untouched),
set `lastTokenRefresh`, mint a new access token from the payload's
roles/username and the user's main/other profiles, append the new refresh
token, persist via `UpdateUser`. Returns the response and the persisted user. -/
def RenewJWT (parsedToken : TokenClaims) (user : User)
    (refreshToken newRefreshToken : String) (now tokenExpiryInterval : Int) :
    Except String (TokenResponse × User) :=
  match user.RemoveRefreshToken refreshToken with
  | .error _ => .error "wrong refresh token"
  | .ok user1 =>
    let user2 := { user1 with timestamps :=
      { user1.timestamps with lastTokenRefresh := now } }
    let roles := GetRolesFromPayload parsedToken.payload
    let username := GetUsernameFromPayload parsedToken.payload
    let mainAndOther := GetMainAndOtherProfiles user2
    let newToken := GenerateNewToken parsedToken.id
      (user2.account.accountConfirmedAt > 0) mainAndOther.1 roles
      parsedToken.instanceID tokenExpiryInterval username mainAndOther.2 now
    let user3 := user2.AddRefreshToken newRefreshToken
    let user4 := UpdateUser user3 now
    .ok ({ accessToken := newToken,
           refreshToken := newRefreshToken,
           accountConfirmed := user4.account.accountConfirmedAt > 0,
           selectedProfileId := parsedToken.profileID,
           preferredLanguage := user4.account.preferredLanguage }, user4)

/-- The last element survives `List.drop (length - 10)`: dropping at most
`l.length` elements from `l ++ [a]` keeps `a`. -/
theorem mem_drop_append_singleton {α : Type} (l : List α) (a : α) (n : Nat)
    (h : n ≤ l.length) : a ∈ (l ++ [a]).drop n := by
  rw [List.drop_append_of_le_length h]
  exact List.mem_append_right _ (List.mem_singleton_self a)

/-- A suffix of a list that avoids `r` does not contain `r`. -/
theorem contains_drop_eq_false {α : Type} [BEq α] [LawfulBEq α] {l : List α}
    {r : α} (h : r ∉ l) (n : Nat) : (l.drop n).contains r = false := by
  simpa using fun hm => h (List.drop_subset _ _ hm)

/-- C1: if the stored user holds the refresh token `r` (once — refresh tokens
are cryptographically unique opaque strings — and the freshly generated token
differs from it), `RenewJWT` succeeds, the persisted user no longer holds `r`
but holds the fresh token, and a second `RenewJWT` presenting the same `r`
against the persisted user fails with `wrong refresh token` — without
producing any updated user to persist. -/
theorem renewJWT_replay_detected (parsedToken : TokenClaims) (u : User)
    (r nr nr2 : String) (now now2 tei tei2 : Int)
    (hmem : r ∈ u.account.refreshTokens)
    (hcount : u.account.refreshTokens.count r = 1)
    (hne : nr ≠ r) :
    ∃ resp u2, RenewJWT parsedToken u r nr now tei = .ok (resp, u2)
      ∧ r ∉ u2.account.refreshTokens
      ∧ nr ∈ u2.account.refreshTokens
      ∧ resp.refreshToken = nr
      ∧ RenewJWT parsedToken u2 r nr2 now2 tei2 = .error "wrong refresh token" := by
  have hcont : u.account.refreshTokens.contains r = true :=
    List.elem_eq_true_of_mem hmem
  have hnotin : r ∉ u.account.refreshTokens.erase r := by
    have hc := List.count_erase_self r u.account.refreshTokens
    intro hmem2
    have h0 : (u.account.refreshTokens.erase r).count r = 0 := by omega
    exact (List.count_eq_zero.mp h0) hmem2
  have hnotin2 : r ∉ u.account.refreshTokens.erase r ++ [nr] := by
    intro hmem2
    rcases List.mem_append.mp hmem2 with h | h
    · exact hnotin h
    · rw [List.mem_singleton] at h
      exact hne (h ▸ rfl)
  simp only [RenewJWT, User.RemoveRefreshToken, if_pos hcont,
    User.AddRefreshToken, UpdateUser]
  refine ⟨_, _, rfl, ?_, ?_, rfl, ?_⟩
  · intro hmem2
    exact hnotin2 (List.drop_subset _ _ hmem2)
  · exact mem_drop_append_singleton _ nr _ (by simp)
  · have hdrop : ∀ n : Nat,
        r ∉ (u.account.refreshTokens.erase r ++ [nr]).drop n :=
      fun n hm => hnotin2 (List.drop_subset _ _ hm)
    simp [hdrop]

/-- A parsed access token presented for renewal; its `profileID` `p2` is a
non-main profile of `renewUser`. -/
def presentedToken : TokenClaims :=
  { id := "uid1", instanceID := "inst1", profileID := "p2",
    otherProfileIDs := ["p1"], accountConfirmed := true,
    payload := { roles := ["PARTICIPANT"], username := "alice" } }

/-- A stored user holding one refresh token `r1`, whose main profile is `p1`
and whose other profile is `p2`. -/
def renewUser : User :=
  { id := "uid1",
    account := { accountID := "alice@test.com", accountConfirmedAt := 50,
                 refreshTokens := ["r1"] },
    profiles := [{ id := "p1", profileAlias := "alice", mainProfile := true },
                 { id := "p2", profileAlias := "kid", mainProfile := false }] }

/-- Witness for C1 at `renewUser`: the hypotheses hold concretely and renewing
with `r1` succeeds; the replay behaviour follows from the theorem at this
input. -/
theorem renewJWT_replay_detected_witness :
    ("r1" ∈ renewUser.account.refreshTokens
      ∧ renewUser.account.refreshTokens.count "r1" = 1
      ∧ "r2" ≠ "r1")
    ∧ (RenewJWT presentedToken renewUser "r1" "r2" 100 60).isOk = true := by
  refine ⟨⟨by decide, by decide, by decide⟩, ?_⟩
  obtain ⟨resp, u2, h1, -, -, -, -⟩ :=
    renewJWT_replay_detected presentedToken renewUser "r1" "r2" "r3" 100 200 60 60
      (by decide) (by decide) (by decide)
  rw [h1]
  rfl

/-- C2 (amended): a successful `RenewJWT` mints an access token with the same
`id`, `instanceId` and payload (`roles`, `username`) as the presented token,
fresh `issuedAt`/`expiresAt`, `accountConfirmed` recomputed from the stored
account — and `profileId`/`otherProfileIds` recomputed from the user's stored
profiles: `profileId` is the user's main profile id, which coincides with the
presented `profileId` only when that was the main profile. The presented
`profileId` is preserved in the response's `selectedProfileId` instead. -/
theorem renewJWT_new_token_claims (parsedToken : TokenClaims) (u : User)
    (r nr : String) (now tei : Int) (resp : TokenResponse) (u2 : User)
    (hok : RenewJWT parsedToken u r nr now tei = .ok (resp, u2)) :
    resp.accessToken.id = parsedToken.id
    ∧ resp.accessToken.instanceID = parsedToken.instanceID
    ∧ resp.accessToken.payload = parsedToken.payload
    ∧ resp.accessToken.profileID = (GetMainAndOtherProfiles u).1
    ∧ resp.accessToken.otherProfileIDs = (GetMainAndOtherProfiles u).2
    ∧ resp.accessToken.accountConfirmed = (u.account.accountConfirmedAt > 0)
    ∧ resp.accessToken.issuedAt = now
    ∧ resp.accessToken.expiresAt = now + tei
    ∧ resp.selectedProfileId = parsedToken.profileID := by
  rw [RenewJWT, User.RemoveRefreshToken] at hok
  by_cases hcont : u.account.refreshTokens.contains r = true
  · rw [if_pos hcont] at hok
    simp only [GenerateNewToken, GetRolesFromPayload, GetUsernameFromPayload,
      User.AddRefreshToken, UpdateUser, Except.ok.injEq, Prod.mk.injEq] at hok
    obtain ⟨hresp, _⟩ := hok
    subst hresp
    simp [GetMainAndOtherProfiles]
  · rw [if_neg hcont] at hok
    exact absurd hok (by simp)

/-- Witness for C2 at `renewUser`: the renewal at `now = 100` with expiry
interval `60` succeeds and its result preserves id, instance and selected
profile of the presented token. -/
theorem renewJWT_new_token_claims_witness :
    ((RenewJWT presentedToken renewUser "r1" "r2" 100 60).toOption.getD
        default).1.accessToken.id = "uid1"
    ∧ ((RenewJWT presentedToken renewUser "r1" "r2" 100 60).toOption.getD
        default).1.accessToken.instanceID = "inst1"
    ∧ ((RenewJWT presentedToken renewUser "r1" "r2" 100 60).toOption.getD
        default).1.selectedProfileId = "p2" := by
  have h := renewJWT_new_token_claims presentedToken renewUser "r1" "r2" 100 60
    ((RenewJWT presentedToken renewUser "r1" "r2" 100 60).toOption.getD
      default).1
    ((RenewJWT presentedToken renewUser "r1" "r2" 100 60).toOption.getD
      default).2
    (by rfl)
  exact ⟨h.1.trans rfl, h.2.1.trans rfl, h.2.2.2.2.2.2.2.2.trans rfl⟩

/-- Counterexample to C2 as stated: renewing with an access token selected on
the non-main profile `p2` succeeds, but the minted access token carries
`profileId = "p1"` (the user's main profile), not the presented `"p2"`. -/
theorem renewJWT_profileId_not_preserved :
    presentedToken.profileID = "p2"
    ∧ (RenewJWT presentedToken renewUser "r1" "r2" 100 60).toOption.map
        (fun x => x.1.accessToken.profileID) = some "p1" := by
  constructor
  · rfl
  · rfl

/-! ### Profile operations (C5, C6) -/

/-- `maximumProfilesAllowed`. Modelled from the spec: the profile-count policy
constant ("at most ~6 profiles per user, enforced at add time"); its defining
Go constant is not among the provided sources. Every claim proved about it
holds for any positive value; 6 is used to make the definitions executable. -/
def maximumProfilesAllowed : Nat := 6

/-- Modelled from the spec: `models.User.AddProfile` (not among the provided
sources) appends the profile, enforcing the main-profile invariant: the first
profile created is the main one, later ones are added as non-main. -/
def User.AddProfile (u : User) (p : Profile) : User :=
  { u with profiles :=
    u.profiles ++ [{ p with mainProfile := u.profiles.isEmpty }] }

/-- Modelled from the spec: `models.User.UpdateProfile` (not among the
provided sources) replaces the stored profile carrying the given id, keeping
the stored main-profile flag so that the main-profile invariant is enforced;
it fails if no profile has that id. -/
def User.UpdateProfile (u : User) (p : Profile) : Except String User :=
  if u.profiles.any (fun q => q.id = p.id) then
    .ok { u with profiles := u.profiles.map (fun q =>
      if q.id = p.id then { p with mainProfile := q.mainProfile } else q) }
  else
    .error "profile not found"

/-- Set `mainProfile` on the first profile of a list. -/
def promoteFirst : List Profile → List Profile
  | [] => []
  | p :: ps => { p with mainProfile := true } :: ps

/-- Modelled from the spec: `models.User.RemoveProfile` (not among the
provided sources) removes the first profile carrying the given id (failing if
there is none) and enforces the main-profile invariant: removing the main
profile promotes the next one. -/
def User.RemoveProfile (u : User) (pid : String) : Except String User :=
  match u.profiles.find? (fun q => q.id = pid) with
  | none => .error "profile with given id not found"
  | some q =>
    let rest := u.profiles.eraseP (fun r => r.id = pid)
    .ok { u with profiles := if q.mainProfile then promoteFirst rest else rest }

/-- `SaveProfile` from `account_management_endpoints.go` (aggregate state
change only; `UpdateUser`'s `updatedAt` bump is timestamp-only and omitted
here): an empty profile id means add — rejected with `reached profile limit`
when the user already has *more than* `maximumProfilesAllowed` profiles — and
a non-empty id means update. -/
def SaveProfile (u : User) (p : Profile) : Except String User :=
  if p.id = "" then
    if u.profiles.length > maximumProfilesAllowed then
      .error "reached profile limit"
    else
      .ok (u.AddProfile p)
  else
    u.UpdateProfile p

/-- `RemoveProfile` from `account_management_endpoints.go` (aggregate state
change only): rejected when the user has exactly one profile, otherwise
delegated to the aggregate removal. -/
def RemoveProfile (u : User) (pid : String) : Except String User :=
  if u.profiles.length = 1 then
    .error "cannot delete last profile"
  else
    u.RemoveProfile pid

/-- One profile endpoint call, as it acts on the stored user: a failing call
returns before `UpdateUser`, leaving the stored user unchanged. -/
inductive ProfileOp where
  | save (p : Profile)
  | remove (pid : String)
  deriving Repr, DecidableEq

/-- The stored user after one profile endpoint call (errors persist nothing). -/
def applyProfileOp (u : User) : ProfileOp → User
  | .save p =>
    match SaveProfile u p with
    | .ok v => v
    | .error _ => u
  | .remove pid =>
    match RemoveProfile u pid with
    | .ok v => v
    | .error _ => u

/-- The stored user after a sequence of profile endpoint calls. -/
def runProfileOps (u : User) (ops : List ProfileOp) : User :=
  ops.foldl applyProfileOp u

/-- The profile invariant of the claim: a non-empty profile list with exactly
one main profile. -/
def profileInvariant (u : User) : Prop :=
  u.profiles ≠ [] ∧ u.profiles.countP (fun p => p.mainProfile) = 1

instance (u : User) : Decidable (profileInvariant u) := by
  unfold profileInvariant
  infer_instance

/-- Erasing the first element found by `find?` removes exactly that element:
the predicate-count drops by the erased element's contribution and the length
drops by one. -/
theorem eraseP_count_length (f p : Profile → Bool) :
    ∀ (l : List Profile) (q : Profile), l.find? p = some q →
      (l.eraseP p).countP f + (if f q then 1 else 0) = l.countP f
      ∧ (l.eraseP p).length + 1 = l.length := by
  intro l
  induction l with
  | nil => intro q hq; cases hq
  | cons a t ih =>
    intro q hq
    by_cases hpa : p a
    · rw [List.find?_cons_of_pos _ hpa] at hq
      cases hq
      rw [List.eraseP_cons_of_pos hpa]
      constructor
      · rw [List.countP_cons]
      · rfl
    · rw [List.find?_cons_of_neg _ hpa] at hq
      obtain ⟨h1, h2⟩ := ih q hq
      rw [List.eraseP_cons, Bool.eq_false_iff.mpr hpa]
      simp only [cond_false, List.countP_cons, List.length_cons]
      constructor
      · omega
      · omega

/-- Promoting the head of a list with no main profile yields exactly one main
profile, of the same length. -/
theorem promoteFirst_count (l : List Profile) (hne : l ≠ [])
    (hz : l.countP (fun p => p.mainProfile) = 0) :
    (promoteFirst l).countP (fun p => p.mainProfile) = 1
    ∧ (promoteFirst l).length = l.length ∧ promoteFirst l ≠ [] := by
  cases l with
  | nil => exact absurd rfl hne
  | cons b t =>
    rw [List.countP_cons] at hz
    refine ⟨?_, rfl, by simp [promoteFirst]⟩
    rw [promoteFirst, List.countP_cons]
    have hb : ({ b with mainProfile := true } : Profile).mainProfile = true := rfl
    rw [hb, if_pos rfl]
    omega

/-- One profile endpoint call preserves the profile invariant. -/
theorem applyProfileOp_preserves (u : User) (op : ProfileOp)
    (h : profileInvariant u) : profileInvariant (applyProfileOp u op) := by
  obtain ⟨hne, hcount⟩ := h
  cases op with
  | save p =>
    rw [applyProfileOp, SaveProfile]
    by_cases hid : p.id = ""
    · rw [if_pos hid]
      by_cases hlim : u.profiles.length > maximumProfilesAllowed
      · rw [if_pos hlim]
        exact ⟨hne, hcount⟩
      · rw [if_neg hlim]
        refine ⟨by simp [User.AddProfile], ?_⟩
        have hie : u.profiles.isEmpty = false := by
          simpa using hne
        simp [User.AddProfile, List.countP_append, hie, hcount]
    · rw [if_neg hid, User.UpdateProfile]
      by_cases hfound : u.profiles.any (fun q => q.id = p.id)
      · rw [if_pos hfound]
        refine ⟨by simpa using hne, ?_⟩
        rw [List.countP_map]
        rw [List.countP_congr ?_]
        · exact hcount
        · intro x _
          simp only [Function.comp]
          by_cases hx : x.id = p.id <;> simp [hx]
      · rw [if_neg hfound]
        exact ⟨hne, hcount⟩
  | remove pid =>
    rw [applyProfileOp, RemoveProfile]
    by_cases hone : u.profiles.length = 1
    · rw [if_pos hone]
      exact ⟨hne, hcount⟩
    · rw [if_neg hone, User.RemoveProfile]
      cases hfind : u.profiles.find? (fun q => q.id = pid) with
      | none => exact ⟨hne, hcount⟩
      | some q =>
        obtain ⟨hc, hl⟩ := eraseP_count_length (fun p => p.mainProfile)
          (fun r => r.id = pid) u.profiles q hfind
        have hlen2 : 2 ≤ u.profiles.length := by
          have : u.profiles.length ≠ 0 := by
            simpa using hne
          omega
        have hrestne : u.profiles.eraseP (fun r => r.id = pid) ≠ [] := by
          have : (u.profiles.eraseP (fun r => r.id = pid)).length ≠ 0 := by omega
          simpa [List.length_eq_zero] using this
        show profileInvariant { u with profiles := (if q.mainProfile then promoteFirst (u.profiles.eraseP (fun r => r.id = pid)) else u.profiles.eraseP (fun r => r.id = pid)) }
        by_cases hmain : q.mainProfile
        · rw [hmain, if_pos rfl] at hc
          have hz : (u.profiles.eraseP (fun r => r.id = pid)).countP
              (fun p => p.mainProfile) = 0 := by omega
          obtain ⟨h1, _, h3⟩ := promoteFirst_count _ hrestne hz
          refine ⟨?_, ?_⟩
          · rw [if_pos hmain]
            exact h3
          · rw [if_pos hmain]
            exact h1
        · rw [if_neg (by simpa using hmain)] at hc
          refine ⟨?_, ?_⟩
          · rw [if_neg hmain]
            exact hrestne
          · rw [if_neg hmain]
            show List.countP (fun p => p.mainProfile)
              (u.profiles.eraseP (fun r => r.id = pid)) = 1
            omega

/-- C5: every user state reachable from a state satisfying the profile
invariant through the profile endpoints (`SaveProfile` add/update,
`RemoveProfile`) keeps a non-empty profile list with exactly one main
profile; in particular `RemoveProfile` fails on a user with a single profile,
leaving the stored user unchanged. -/
theorem profile_invariant_reachable (u0 : User) (ops : List ProfileOp)
    (h : profileInvariant u0) :
    profileInvariant (runProfileOps u0 ops)
    ∧ (∀ (u : User) (pid : String), u.profiles.length = 1 →
        RemoveProfile u pid = .error "cannot delete last profile"
        ∧ applyProfileOp u (.remove pid) = u) := by
  constructor
  · rw [runProfileOps]
    induction ops generalizing u0 with
    | nil => exact h
    | cons op rest ih =>
      rw [List.foldl_cons]
      exact ih _ (applyProfileOp_preserves u0 op h)
  · intro u pid hone
    have herr : RemoveProfile u pid = .error "cannot delete last profile" := by
      rw [RemoveProfile, if_pos hone]
    refine ⟨herr, ?_⟩
    rw [applyProfileOp, herr]

/-- A user with a single (main) profile. -/
def singleProfileUser : User :=
  { id := "u3", account := { accountID := "g@h.i" },
    profiles := [{ id := "p1", profileAlias := "g", mainProfile := true }] }

/-- Witness for C5: from `singleProfileUser`, adding two profiles, updating
one and removing the main profile preserves the invariant, and removing the
last profile of `singleProfileUser` fails without changing it. -/
theorem profile_invariant_reachable_witness :
    profileInvariant singleProfileUser
    ∧ profileInvariant (runProfileOps singleProfileUser
        [ProfileOp.save { id := "", profileAlias := "kid", mainProfile := false },
         ProfileOp.save { id := "", profileAlias := "dog", mainProfile := true },
         ProfileOp.save { id := "p1", profileAlias := "gg", mainProfile := false },
         ProfileOp.remove "p1"])
    ∧ RemoveProfile singleProfileUser "p1" =
        .error "cannot delete last profile"
    ∧ applyProfileOp singleProfileUser (.remove "p1") = singleProfileUser := by
  have h := profile_invariant_reachable singleProfileUser
    [ProfileOp.save { id := "", profileAlias := "kid", mainProfile := false },
     ProfileOp.save { id := "", profileAlias := "dog", mainProfile := true },
     ProfileOp.save { id := "p1", profileAlias := "gg", mainProfile := false },
     ProfileOp.remove "p1"] (by decide)
  obtain ⟨hrem1, hrem2⟩ := h.2 singleProfileUser "p1" (by decide)
  exact ⟨by decide, h.1, hrem1, hrem2⟩

/-- C6 (amended): a `SaveProfile` add is rejected with `reached profile
limit` exactly when the user already has strictly more than
`maximumProfilesAllowed` profiles; hence a successful add grows the profile
list by one and, through `SaveProfile`, a user never exceeds
`maximumProfilesAllowed + 1` profiles (one more than the claim states,
because the source compares with `>` before adding). -/
theorem saveProfile_limit (u : User) (p : Profile) (hadd : p.id = "") :
    (u.profiles.length > maximumProfilesAllowed →
      SaveProfile u p = .error "reached profile limit")
    ∧ (∀ v : User, SaveProfile u p = .ok v →
        v.profiles.length = u.profiles.length + 1
        ∧ v.profiles.length ≤ maximumProfilesAllowed + 1) := by
  constructor
  · intro hlim
    rw [SaveProfile, if_pos hadd, if_pos hlim]
  · intro v hok
    rw [SaveProfile, if_pos hadd] at hok
    by_cases hlim : u.profiles.length > maximumProfilesAllowed
    · rw [if_pos hlim] at hok
      cases hok
    · rw [if_neg hlim] at hok
      cases hok
      constructor
      · simp [User.AddProfile]
      · simp only [User.AddProfile, List.length_append, List.length_cons,
          List.length_nil]
        omega

/-- A user with exactly `maximumProfilesAllowed` profiles, the first one
main. -/
def userAtProfileLimit : User :=
  { id := "u6", account := { accountID := "j@k.l" },
    profiles :=
      [{ id := "q1", profileAlias := "a", mainProfile := true },
       { id := "q2", profileAlias := "b", mainProfile := false },
       { id := "q3", profileAlias := "c", mainProfile := false },
       { id := "q4", profileAlias := "d", mainProfile := false },
       { id := "q5", profileAlias := "e", mainProfile := false },
       { id := "q6", profileAlias := "f", mainProfile := false }] }

/-- Counterexample to C6 as stated: `userAtProfileLimit` already holds the
maximum allowed number of profiles, yet a `SaveProfile` add succeeds and
leaves it with `maximumProfilesAllowed + 1` profiles. -/
theorem saveProfile_at_limit_succeeds :
    userAtProfileLimit.profiles.length = maximumProfilesAllowed
    ∧ (SaveProfile userAtProfileLimit
        { id := "", profileAlias := "extra", mainProfile := false }).isOk = true
    ∧ (SaveProfile userAtProfileLimit
        { id := "", profileAlias := "extra", mainProfile := false }).toOption.map
        (fun v => v.profiles.length) = some (maximumProfilesAllowed + 1) := by
  refine ⟨by decide, by decide, by decide⟩

/-- A user with one profile more than the limit. -/
def userOverProfileLimit : User :=
  { userAtProfileLimit with profiles := userAtProfileLimit.profiles ++
      [{ id := "q7", profileAlias := "g", mainProfile := false }] }

/-- Witness for C6 (amended) at concrete users: the add is rejected at
`maximumProfilesAllowed + 1` profiles and a successful add at the limit stays
within `maximumProfilesAllowed + 1`. -/
theorem saveProfile_limit_witness :
    SaveProfile userOverProfileLimit
      { id := "", profileAlias := "x", mainProfile := false } =
        .error "reached profile limit"
    ∧ (SaveProfile userAtProfileLimit
        { id := "", profileAlias := "x", mainProfile := false }).toOption.map
        (fun v => v.profiles.length) = some 7 := by
  constructor
  · exact (saveProfile_limit userOverProfileLimit
      { id := "", profileAlias := "x", mainProfile := false } (by decide)).1
      (by decide)
  · decide

/-! ### Account deletion (C7) -/

/-- Modelled from the spec: `GlobalDBService.DeleteAllTempTokenForUser` (store
operation `DeleteAllForUser(instance, userId, purpose?)`, not among the
provided sources) deletes every temp token of the given instance and user,
filtered by purpose when a non-empty one is given. -/
def DeleteAllTempTokenForUser (store : List TempToken)
    (instanceID userID purpose : String) : List TempToken :=
  store.filter (fun t => ¬ (t.instanceID = instanceID ∧ t.userID = userID ∧
    (purpose = "" ∨ t.purpose = purpose)))

/-- `UserDBService.DeleteUser`: Mongo `DeleteOne` by `_id` — removes the first
(in Mongo: the unique) document with that id, failing when none is deleted. -/
def DeleteUser (users : List User) (id : String) : Except String (List User) :=
  if users.any (fun u => u.id = id) then
    .ok (users.eraseP (fun u => u.id = id))
  else
    .error "no user found with the given id"

/-- `DeleteAccount` from `account_management_endpoints.go` (persistence
effects only; the goodbye email and log events are detached side effects):
authorization requires the caller's token id to equal the target user id;
the user is loaded (errors if absent), the user document deleted, and all
temp tokens of that instance and user purged (empty purpose = all purposes).
Returns the new user store and temp-token store. -/
def DeleteAccount (users : List User) (tts : List TempToken)
    (tokenId tokenInstance reqUserId : String) :
    Except String (List User × List TempToken) :=
  if reqUserId = "" then .error "missing argument"
  else if tokenId ≠ reqUserId then .error "not authorized"
  else if ¬ users.any (fun u => u.id = reqUserId) then .error "user not found"
  else
    match DeleteUser users reqUserId with
    | .error e => .error e
    | .ok users2 =>
      .ok (users2, DeleteAllTempTokenForUser tts tokenInstance tokenId "")

/-- No user with the erased id remains after `eraseP` when the id occurred at
most once. -/
theorem eraseP_id_not_mem (users : List User) (uid : String)
    (hunique : users.countP (fun u => u.id = uid) ≤ 1) :
    ∀ u ∈ users.eraseP (fun u => u.id = uid), u.id ≠ uid := by
  induction users with
  | nil => intro u hu; cases hu
  | cons a t ih =>
    rw [List.countP_cons] at hunique
    by_cases ha : a.id = uid
    · rw [List.eraseP_cons_of_pos (by simpa using ha)]
      intro u hu hu2
      have : t.countP (fun u => u.id = uid) = 0 := by
        rw [if_pos (by simpa using ha)] at hunique
        omega
      exact absurd hu ((List.countP_eq_zero.mp this) u · (by simpa using hu2))
    · rw [List.eraseP_cons]
      have hd : decide (a.id = uid) = false := by simpa using ha
      rw [hd]
      simp only [cond_false]
      intro u hu
      rcases List.mem_cons.mp hu with h | h
      · exact h ▸ ha
      · exact ih (by omega) u h

/-- C7: after a successful `DeleteAccount` for user `u` (caller's token id
equal to the target), the user record is gone from the user store and no
temp token of that user remains, for any purpose — provided user ids are
unique (a Mongo `_id` guarantee) and every temp token of that user belongs to
the caller's instance (user ids are unique across instance databases). -/
theorem deleteAccount_purges_user (users : List User) (tts : List TempToken)
    (tokenId tokenInstance reqUserId : String)
    (users2 : List User) (tts2 : List TempToken)
    (hunique : users.countP (fun u => u.id = reqUserId) ≤ 1)
    (hinst : ∀ t ∈ tts, t.userID = tokenId → t.instanceID = tokenInstance)
    (hok : DeleteAccount users tts tokenId tokenInstance reqUserId =
      .ok (users2, tts2)) :
    (∀ u ∈ users2, u.id ≠ reqUserId) ∧ (∀ t ∈ tts2, t.userID ≠ tokenId) := by
  rw [DeleteAccount] at hok
  by_cases h1 : reqUserId = ""
  · rw [if_pos h1] at hok
    cases hok
  rw [if_neg h1] at hok
  by_cases h2 : tokenId ≠ reqUserId
  · rw [if_pos h2] at hok
    cases hok
  rw [if_neg h2] at hok
  by_cases h3 : ¬ users.any (fun u => u.id = reqUserId)
  · rw [if_pos h3] at hok
    cases hok
  rw [if_neg h3] at hok
  rw [DeleteUser, if_pos (by simpa using not_not.mp h3)] at hok
  simp only [Except.ok.injEq, Prod.mk.injEq] at hok
  obtain ⟨hu, ht⟩ := hok
  constructor
  · intro u hmem
    rw [← hu] at hmem
    exact eraseP_id_not_mem users reqUserId hunique u hmem
  · intro t hmem htid
    rw [← ht] at hmem
    rw [DeleteAllTempTokenForUser] at hmem
    have := List.of_mem_filter hmem
    simp only [decide_eq_true_eq] at this
    exact this ⟨hinst t (List.mem_of_mem_filter hmem) htid, htid, Or.inl trivial⟩

/-- A user store and temp-token store, used to witness C7. -/
def deleteAccountUsers : List User :=
  [{ id := "ua", account := { accountID := "a@a.a" } },
   { id := "ub", account := { accountID := "b@b.b" } }]

/-- Temp tokens of both users in instance `i1`, several purposes. -/
def deleteAccountTokens : List TempToken :=
  [{ token := "t1", userID := "ua", instanceID := "i1",
     purpose := "password-reset" },
   { token := "t2", userID := "ua", instanceID := "i1",
     purpose := "unsubscribe-newsletter" },
   { token := "t3", userID := "ub", instanceID := "i1",
     purpose := "password-reset" }]

/-- The user record surviving the witness deletion. -/
def survivingUser : User := { id := "ub", account := { accountID := "b@b.b" } }

/-- The temp token surviving the witness deletion. -/
def survivingToken : TempToken :=
  { token := "t3", userID := "ub", instanceID := "i1",
    purpose := "password-reset" }

/-- Witness for C7: deleting `ua` succeeds and the persisted stores keep no
user record `ua` and no temp token of `ua`, while `ub`'s data survives. -/
theorem deleteAccount_purges_user_witness :
    DeleteAccount deleteAccountUsers deleteAccountTokens "ua" "i1" "ua" =
      .ok ([survivingUser], [survivingToken])
    ∧ ((∀ u ∈ [survivingUser], u.id ≠ "ua")
       ∧ (∀ t ∈ [survivingToken], t.userID ≠ "ua")) := by
  refine ⟨by rfl, ?_⟩
  exact deleteAccount_purges_user deleteAccountUsers deleteAccountTokens
    "ua" "i1" "ua" [survivingUser] [survivingToken]
    (by decide) (by decide) (by rfl)

/-! ### Password-reset initiation (C8) -/

/-- Modelled from the spec: `models.User.CanTriggerPasswordReset` (not among
the provided sources) — true iff fewer than 5 reset triggers fall within the
last hour. -/
def CanTriggerPasswordReset (u : User) (now : Int) : Bool :=
  (u.account.passwordResetTriggers.filter (fun t => t > now - 3600)).length < 5

/-- `UserDBService.SavePasswordResetTrigger`: `$push` of the current unix
second onto `account.passwordResetTriggers`, on one stored user. -/
def SavePasswordResetTrigger (u : User) (now : Int) : User :=
  { u with account :=
    { u.account with passwordResetTriggers :=
        u.account.passwordResetTriggers ++ [now] } }

/-- The `password-reset` temp token minted by `InitiatePasswordReset`:
15-minute lifetime. -/
def mkPasswordResetToken (userId instanceId freshToken : String) (now : Int) :
    TempToken :=
  { token := freshToken, userID := userId, instanceID := instanceId,
    purpose := "password-reset", expiration := now + 15 * 60 }

/-- Modelled from the spec: the `InitiatePasswordReset` endpoint (its
implementation is not among the provided sources; only its test is). On a
well-formed request: if a user with the account id exists and
`CanTriggerPasswordReset` holds, mint a `password-reset` temp token with a
15-minute lifetime, append a trigger timestamp and send the reset email;
whether or not the account exists, the visible response is `OK` (the response
must not reveal account existence). Returns the response string, the updated
user and temp-token stores, and the recipient list of the emails sent. -/
def InitiatePasswordReset (users : List User) (tts : List TempToken)
    (instanceId accountId : String) (now : Int) (freshToken : String) :
    Except String (String × List User × List TempToken × List String) :=
  if instanceId = "" ∨ accountId = "" then .error "missing argument"
  else
    match users.find? (fun u => u.account.accountID = accountId) with
    | none => .ok ("OK", users, tts, [])
    | some u =>
      if CanTriggerPasswordReset u now then
        .ok ("OK",
          users.map (fun v =>
            if v.id = u.id then SavePasswordResetTrigger v now else v),
          tts ++ [mkPasswordResetToken u.id instanceId freshToken now],
          [accountId])
      else
        .ok ("OK", users, tts, [])

/-- C8: on every well-formed request the visible response of
`InitiatePasswordReset` is `OK`; two runs against any two user stores — in
particular one where the account exists and one where it does not — produce
the same visible response, so the response reveals nothing about account
existence. -/
theorem initiatePasswordReset_uniform_response
    (users1 users2 : List User) (tts1 tts2 : List TempToken)
    (instanceId accountId : String) (now1 now2 : Int) (fresh1 fresh2 : String)
    (hinst : instanceId ≠ "") (hacc : accountId ≠ "") :
    (InitiatePasswordReset users1 tts1 instanceId accountId now1 fresh1).map
      (fun r => r.1) = .ok "OK"
    ∧ (InitiatePasswordReset users1 tts1 instanceId accountId now1 fresh1).map
        (fun r => r.1) =
      (InitiatePasswordReset users2 tts2 instanceId accountId now2 fresh2).map
        (fun r => r.1) := by
  have hresp : ∀ (users : List User) (tts : List TempToken) (now : Int)
      (fresh : String),
      (InitiatePasswordReset users tts instanceId accountId now fresh).map
        (fun r => r.1) = .ok "OK" := by
    intro users tts now fresh
    rw [InitiatePasswordReset, if_neg (by tauto)]
    cases users.find? (fun u => u.account.accountID = accountId) with
    | none => rfl
    | some u =>
      by_cases hc : CanTriggerPasswordReset u now
      · simp only [if_pos hc, Except.map]
      · simp only [if_neg hc, Except.map]
  exact ⟨hresp users1 tts1 now1 fresh1,
    (hresp users1 tts1 now1 fresh1).trans (hresp users2 tts2 now2 fresh2).symm⟩

/-- A user store containing the probed account, for the C8 witness. -/
def resetProbeUsers : List User :=
  [{ id := "uc", account := { accountID := "probe@test.com" } }]

/-- Witness for C8: the probe against a store holding `probe@test.com` and
against the empty store (account absent) yield the same `OK` response. -/
theorem initiatePasswordReset_uniform_response_witness :
    (InitiatePasswordReset resetProbeUsers [] "i1" "probe@test.com" 100
      "tk").map (fun r => r.1) = .ok "OK"
    ∧ (InitiatePasswordReset resetProbeUsers [] "i1" "probe@test.com" 100
        "tk").map (fun r => r.1) =
      (InitiatePasswordReset [] [] "i1" "probe@test.com" 200 "tk2").map
        (fun r => r.1) :=
  initiatePasswordReset_uniform_response resetProbeUsers [] [] []
    "i1" "probe@test.com" 100 200 "tk" "tk2" (by decide) (by decide)
